import Mathlib

/- Shallow embedding of the media-filename decomposition and metadata
   resolution pipeline of src/main.py and src/demo/bangumi_api.py of the
   video_demo repository.  Strings are modelled as lists of characters.
   The regular expressions that main.py builds from fixed literals are
   implemented as explicit scanners with the matching semantics of the
   Python `re` module on those literals; the externally configured rule
   file is modelled as an abstract pattern set, where a rule is a search
   function returning the whole match and its capture groups, which is
   exactly the interface main.py consumes (`re.search`, `Match.group`). -/

namespace VideoDemo

abbrev Str := List Char

/-- The whitespace class of Python `\s` on str patterns, `str.isspace` and
    `str.strip()`: one fixed set of code points, namely 09-0D, 1C-20, 85,
    A0, 1680, 2000-200A, 2028, 2029, 202F, 205F and 3000. -/
def isWS (c : Char) : Bool :=
  (9 ≤ c.toNat && c.toNat ≤ 13) || (28 ≤ c.toNat && c.toNat ≤ 32) ||
  c.toNat == 133 || c.toNat == 160 || c.toNat == 5760 ||
  (8192 ≤ c.toNat && c.toNat ≤ 8202) ||
  c.toNat == 8232 || c.toNat == 8233 || c.toNat == 8239 ||
  c.toNat == 8287 || c.toNat == 12288

/-- Python `str.strip()`. -/
def pyStrip (s : Str) : Str :=
  ((s.dropWhile isWS).reverse.dropWhile isWS).reverse

/-- Character class `[\s._-]` of the title-cleanup substitution (line 131). -/
def isSep (c : Char) : Bool := isWS c || c == '.' || c == '_' || c == '-'

/-- State machine for `re.sub(r'[\s._-]+', ' ', s)`: every maximal run of
    separator characters becomes a single space. -/
def collapseGo : Bool → Str → Str
  | _, [] => []
  | prevSep, c :: rest =>
    if isSep c then
      if prevSep then collapseGo true rest else ' ' :: collapseGo true rest
    else c :: collapseGo false rest

def collapseSep (s : Str) : Str := collapseGo false s

/-- Python `s.replace(old, new, 1)`: replace the first occurrence only
    (`s.replace('', new, 1)` prepends `new`). -/
def replaceFirst (s old new : Str) : Str :=
  match s with
  | [] => if old.isPrefixOf ([] : Str) then new else []
  | c :: rest =>
    if old.isPrefixOf (c :: rest) then new ++ (c :: rest).drop old.length
    else c :: replaceFirst rest old new

def digitsToNat (s : Str) : Nat :=
  s.foldl (fun acc c => 10 * acc + (c.toNat - '0'.toNat)) 0

/-- Fuel-driven decimal rendering (kernel reducible). -/
def natDecGo : Nat → Nat → Str → Str
  | 0, _, acc => acc
  | fuel + 1, n, acc =>
    if n = 0 then acc else natDecGo fuel (n / 10) (Nat.digitChar (n % 10) :: acc)

/-- Decimal rendering of a natural number, as Python `str`. -/
def natDec (n : Nat) : Str :=
  if n = 0 then ['0'] else natDecGo (n + 1) n []

/-- Python `str(intValue)`. -/
def intToStr (n : Int) : Str :=
  if n < 0 then '-' :: natDec n.natAbs else natDec n.toNat

/-- Python format `f"{n:02d}"`: decimal, zero-padded to a minimum width of 2. -/
def pad02 (n : Int) : Str :=
  if n < 0 then '-' :: natDec n.natAbs
  else
    let d := natDec n.toNat
    if d.length < 2 then '0' :: d else d

/-- Python `int(s)` on a string: optional sign and decimal digits after
    stripping whitespace, `ValueError` otherwise.  Modelled for the literal
    shapes a digit-based capture group can produce: underscore-grouped and
    non-ASCII-digit literals, which `int()` also accepts, are out of scope
    and conservatively rejected. -/
def pyInt (s : Str) : Except Str Int :=
  let t := pyStrip s
  match t with
  | '-' :: ds =>
    if !ds.isEmpty && ds.all Char.isDigit then .ok (-(digitsToNat ds : Int))
    else .error "invalid literal for int".toList
  | '+' :: ds =>
    if !ds.isEmpty && ds.all Char.isDigit then .ok (digitsToNat ds)
    else .error "invalid literal for int".toList
  | ds =>
    if !ds.isEmpty && ds.all Char.isDigit then .ok (digitsToNat ds)
    else .error "invalid literal for int".toList

/-- Python `int(x)` where `x` may be `None` (a non-participating group). -/
def pyIntOpt : Option Str → Except Str Int
  | none => .error "int of None".toList
  | some s => pyInt s

/-- Result of a successful `re.search`: the whole match (`group(0)`) and the
    captured groups `group(1), group(2), ...`. -/
structure MatchRes where
  whole : Str
  groups : List (Option Str)
deriving DecidableEq

/-- A compiled rule of the pattern file: what `re.search(rule, s, re.IGNORECASE)`
    returns on each subject string. -/
abbrev Pat := Str → Option MatchRes

/-- Python `Match.group(i)` for `i ≥ 1`: `IndexError` when the pattern has
    fewer groups, otherwise the possibly-absent captured substring. -/
def mrGroup (m : MatchRes) (i : Nat) : Except Str (Option Str) :=
  match m.groups.get? (i - 1) with
  | some g => .ok g
  | none => .error "no such group".toList

/-- Python `(g1 or g0)`: `g1` unless it is `None` or empty. -/
def pyOr (g1 : Option Str) (g0 : Str) : Str :=
  match g1 with
  | some v => if v = [] then g0 else v
  | none => g0

/-- Behaviour of `re.search('', s)`: always a zero-width match with no groups.
    This is what the `self.patterns.get(name, '')` default of main.py line 117
    and 123 compiles to when the rule name is absent. -/
def emptyPat : Pat := fun _ => some ⟨[], []⟩

def patGet (p : Option Pat) : Pat := p.getD emptyPat

def isOpenB (c : Char) : Bool := c == '[' || c == '【'

def isCloseB (c : Char) : Bool := c == ']' || c == '】'

/-- Scanner for `re.finditer(r'[\[【](.*?)[\]】]', s)` (line 95): the list of
    (whole match, captured content) pairs, leftmost and non-overlapping, the
    lazy content running up to the first closing bracket. -/
def fbGo : Option (Char × Str) → Str → List (Str × Str)
  | _, [] => []
  | none, c :: rest => if isOpenB c then fbGo (some (c, [])) rest else fbGo none rest
  | some (o, acc), c :: rest =>
    if isCloseB c then (o :: (acc ++ [c]), acc) :: fbGo none rest
    else fbGo (some (o, acc ++ [c])) rest

def findBrackets (s : Str) : List (Str × Str) := fbGo none s

/-- Scanner for `re.sub(r'[\[【].*?[】\]]', '', s)` (line 130): drop every
    bracketed segment, keep an unclosed trailing open bracket verbatim. -/
def sbGo : Option (Char × Str) → Str → Str
  | none, [] => []
  | some (o, acc), [] => o :: acc
  | none, c :: rest => if isOpenB c then sbGo (some (c, [])) rest else c :: sbGo none rest
  | some (o, acc), c :: rest =>
    if isCloseB c then sbGo none rest else sbGo (some (o, acc ++ [c])) rest

def stripBrAll (s : Str) : Str := sbGo none s

/-- ASCII lower-casing, the effect of `re.IGNORECASE` on the fixed literals. -/
def lcA (c : Char) : Char :=
  if 65 ≤ c.toNat && c.toNat ≤ 90 then Char.ofNat (c.toNat + 32) else c

def stripWordCI : Str → Str → Option Str
  | [], s => some s
  | _ :: _, [] => none
  | w :: wr, c :: cr => if lcA c = w then stripWordCI wr cr else none

def seasonWord : Str := ['s', 'e', 'a', 's', 'o', 'n']

/-- Tail `\s*[Ss]eason\s*(\d+)\]` of the title+season regex of line 84
    (with IGNORECASE): returns the digit group and the rest after `]`. -/
def matchSeasonTail (s : Str) : Option (Str × Str) :=
  let s1 := s.dropWhile isWS
  match stripWordCI seasonWord s1 with
  | none => none
  | some s2 =>
    let s3 := s2.dropWhile isWS
    let ds := s3.takeWhile Char.isDigit
    if ds.isEmpty then none
    else
      match s3.drop ds.length with
      | ']' :: rest => some (ds, rest)
      | _ => none

/-- Lazy group `([^\]]*?)`: grow the group one character at a time (never
    across `]`) until the tail matches; returns (group1, digits, rest). -/
def tsFromOpen (acc : Str) (s : Str) : Option (Str × Str × Str) :=
  match matchSeasonTail s with
  | some (ds, rest) => some (acc.reverse, ds, rest)
  | none =>
    match s with
    | [] => none
    | c :: rest => if c = ']' then none else tsFromOpen (c :: acc) rest

/-- Scanner for `re.search(r'\[([^\]]*?)\s*[Ss]eason\s*(\d+)\]', s, re.IGNORECASE)`
    of parse_filename step 1: leftmost match as (whole, group1, group2). -/
def titleSeasonSearch : Str → Option (Str × Str × Str)
  | [] => none
  | c :: rest =>
    if c = '[' then
      match tsFromOpen [] rest with
      | some (g1, ds, after) =>
        some ((c :: rest).take ((c :: rest).length - after.length), g1, ds)
      | none => titleSeasonSearch rest
    else titleSeasonSearch rest

/-- The info dictionary built by parse_filename (line 76), before the final
    defaulting step: 字幕组/标题/季数/集数/分辨率/视频编码/音频编码/字幕/备注. -/
structure PInfo where
  group : Option Str := none
  title : Option Str := none
  season : Option Str := none
  episode : Option Str := none
  resolution : Option Str := none
  video_codec : Option Str := none
  audio_codec : Option Str := none
  subtitle : Option Str := none
  remarks : List Str := []
deriving DecidableEq

/-- The record parse_filename returns after step 5 (season defaulted,
    remarks joined); bangumi_eps is the key process_directory may add. -/
structure MediaInfo where
  group : Option Str
  title : Str
  season : Str
  episode : Option Str
  resolution : Option Str
  video_codec : Option Str
  audio_codec : Option Str
  subtitle : Option Str
  remarks : Option Str
  bangumi_eps : Option Nat
deriving DecidableEq

/-- The loaded rule file: named rules, each possibly absent (or present but
    empty, which main.py treats identically at every use site). -/
structure PatSet where
  season_episode : Option Pat := none
  episode : Option Pat := none
  resolution : Option Pat := none
  source : Option Pat := none
  video_codec : Option Pat := none
  audio_codec : Option Pat := none
  subtitle : Option Pat := none
  group : Option Pat := none

inductive TechKey
  | resolution | src | video_codec | audio_codec | subtitle | grp
deriving DecidableEq

/-- The tech_keys dict of line 92, in insertion order. -/
def techRules (ps : PatSet) : List (TechKey × Option Pat) :=
  [(.resolution, ps.resolution), (.src, ps.source), (.video_codec, ps.video_codec),
   (.audio_codec, ps.audio_codec), (.subtitle, ps.subtitle), (.grp, ps.group)]

/-- Lines 105-107: a source match appends to 备注, every other category sets
    its field only when it is still unset. -/
def applyTech (k : TechKey) (v : Str) (info : PInfo) : PInfo :=
  match k with
  | .src => { info with remarks := info.remarks ++ [v] }
  | .resolution =>
    if info.resolution = none then { info with resolution := some v } else info
  | .video_codec =>
    if info.video_codec = none then { info with video_codec := some v } else info
  | .audio_codec =>
    if info.audio_codec = none then { info with audio_codec := some v } else info
  | .subtitle =>
    if info.subtitle = none then { info with subtitle := some v } else info
  | .grp =>
    if info.group = none then { info with group := some v } else info

/-- Inner loop of step 2 (lines 98-110): first category whose rule exists,
    is non-empty and matches the bracket content claims it; the extracted
    value is `(match.group(1) or match.group(0)).strip()`, which raises when
    the rule has no capture group. -/
def tryCats (content : Str) (info : PInfo) :
    List (TechKey × Option Pat) → Except Str (Option PInfo)
  | [] => .ok none
  | kp :: rest =>
    match kp.2 with
    | none => tryCats content info rest
    | some p =>
      match p content with
      | none => tryCats content info rest
      | some m =>
        match mrGroup m 1 with
        | .error e => .error e
        | .ok g1 => .ok (some (applyTech kp.1 (pyStrip (pyOr g1 m.whole)) info))

/-- Outer loop of step 2 (lines 95-113): iterate over the brackets of the
    snapshot of work_str, removing each claimed bracket from the working
    copy. -/
def processBrackets (ps : PatSet) :
    List (Str × Str) → Str → PInfo → Except Str (Str × PInfo)
  | [], temp, info => .ok (temp, info)
  | wc :: rest, temp, info =>
    match tryCats wc.2 info (techRules ps) with
    | .error e => .error e
    | .ok none => processBrackets ps rest temp info
    | .ok (some info2) => processBrackets ps rest (replaceFirst temp wc.1 []) info2

/-- Step 1 of parse_filename (lines 84-89). -/
def step1 (work : Str) (info : PInfo) : Str × PInfo :=
  match titleSeasonSearch work with
  | some (whole, g1, g2) =>
    (replaceFirst work whole [],
     { info with title := some (pyStrip g1), season := some (pyStrip g2) })
  | none => (work, info)

/-- Step 2 of parse_filename (lines 91-113). -/
def step2 (ps : PatSet) (work : Str) (info : PInfo) : Except Str (Str × PInfo) :=
  processBrackets ps (findBrackets work) work info

/-- Line 119: `if info['季数'] is None: info['季数'] = str(int(se_match.group(1)))`. -/
def seUpdateSeason (m : MatchRes) (info : PInfo) : Except Str PInfo :=
  if info.season = none then
    match mrGroup m 1 with
    | .error e => .error e
    | .ok g1 =>
      match pyIntOpt g1 with
      | .error e => .error e
      | .ok n => .ok { info with season := some (intToStr n) }
  else .ok info

/-- Step 3 of parse_filename (lines 115-126): season_episode rule first,
    then the standalone episode rule, a missing rule defaulting to the empty
    pattern. -/
def step3 (ps : PatSet) (work : Str) (info : PInfo) : Except Str (Str × PInfo) :=
  if info.episode = none then
    match patGet ps.season_episode work with
    | some m =>
      match seUpdateSeason m info with
      | .error e => .error e
      | .ok info2 =>
        match mrGroup m 2 with
        | .error e => .error e
        | .ok g2 =>
          match pyIntOpt g2 with
          | .error e => .error e
          | .ok n2 =>
            .ok (replaceFirst work m.whole [], { info2 with episode := some (pad02 n2) })
    | none =>
      match patGet ps.episode work with
      | some m =>
        match mrGroup m 1 with
        | .error e => .error e
        | .ok g1 =>
          match pyIntOpt g1 with
          | .error e => .error e
          | .ok n =>
            .ok (replaceFirst work m.whole [], { info with episode := some (pad02 n) })
      | none => .ok (work, info)
  else .ok (work, info)

def unknownTitle : Str := "Unknown Title".toList

def oneStr : Str := ['1']

/-- The title cleanup of step 4 (lines 130-132). -/
def fallbackTitle (work : Str) : Str :=
  let t1 := pyStrip (stripBrAll work)
  let t2 := pyStrip (collapseSep t1)
  if t2 = [] then unknownTitle else t2

/-- Step 4 of parse_filename (lines 128-132). -/
def step4 (work : Str) (info : PInfo) : PInfo :=
  match info.title with
  | some _ => info
  | none => { info with title := some (fallbackTitle work) }

/-- Step 5 of parse_filename (lines 134-136): default season, join remarks. -/
def finalize (info : PInfo) : MediaInfo :=
  { group := info.group
    title := info.title.getD []
    season := info.season.getD oneStr
    episode := info.episode
    resolution := info.resolution
    video_codec := info.video_codec
    audio_codec := info.audio_codec
    subtitle := info.subtitle
    remarks :=
      let j := List.intercalate ", ".toList info.remarks
      if j = [] then none else some j
    bangumi_eps := none }

/-- MediaManager.parse_filename (lines 69-138): the five steps in sequence,
    with Python exceptions surfaced as `Except.error` and propagated. -/
def parse_filename (ps : PatSet) (stem : Str) : Except Str MediaInfo :=
  (step2 ps (step1 stem {}).1 (step1 stem {}).2).bind fun wi2 =>
    (step3 ps wi2.1 wi2.2).bind fun wi3 =>
      .ok (finalize (step4 wi3.1 wi3.2))

/-- Scanner core for the Scenario A resolution rule `\d{3,4}p` (IGNORECASE):
    greedy three-or-four digits then the letter p, tried at one position. -/
def resAt3 (s : Str) : Option Str :=
  match s with
  | a :: b :: c :: p :: _ =>
    if a.isDigit && b.isDigit && c.isDigit && (p == 'p' || p == 'P') then
      some [a, b, c, p]
    else none
  | _ => none

def resAtPos (s : Str) : Option Str :=
  match s with
  | a :: b :: c :: d :: p :: _ =>
    if a.isDigit && b.isDigit && c.isDigit && d.isDigit && (p == 'p' || p == 'P') then
      some [a, b, c, d, p]
    else resAt3 s
  | _ => resAt3 s

def searchResNG : Str → Option MatchRes
  | [] => none
  | c :: rest =>
    match resAtPos (c :: rest) with
    | some w => some ⟨w, []⟩
    | none => searchResNG rest

/-- The rule `\d{3,4}p` exactly as Scenario A spells it: no capture group. -/
def resNGpat : Pat := fun s => searchResNG s

/-- The same rule wrapped in one capture group, `(\d{3,4}p)`. -/
def resGpat : Pat := fun s => (searchResNG s).map fun m => ⟨m.whole, [some m.whole]⟩

/-- Scanner core for the Scenario A video_codec rule `x26[45]` (IGNORECASE). -/
def vcAtPos (s : Str) : Option Str :=
  match s with
  | a :: b :: c :: d :: _ =>
    if (a == 'x' || a == 'X') && b == '2' && c == '6' && (d == '4' || d == '5') then
      some [a, b, c, d]
    else none
  | _ => none

def searchVcNG : Str → Option MatchRes
  | [] => none
  | c :: rest =>
    match vcAtPos (c :: rest) with
    | some w => some ⟨w, []⟩
    | none => searchVcNG rest

/-- The rule `x26[45]` exactly as Scenario A spells it: no capture group. -/
def vcNGpat : Pat := fun s => searchVcNG s

/-- The same rule wrapped in one capture group, `(x26[45])`. -/
def vcGpat : Pat := fun s => (searchVcNG s).map fun m => ⟨m.whole, [some m.whole]⟩

/-- Modelled from the spec: the repository's regex rule file is not under
    src, and the spec's Pattern Set lists a combined season_episode rule and
    a standalone episode rule; they are modelled as the typical digit-based
    patterns `S(\d+)E(\d+)` (IGNORECASE) and `(\d+)`. -/
def seAtPos (s : Str) : Option MatchRes :=
  match s with
  | c :: rest =>
    if c == 's' || c == 'S' then
      let d1 := rest.takeWhile Char.isDigit
      if d1.isEmpty then none
      else
        match rest.drop d1.length with
        | e :: rest2 =>
          if e == 'e' || e == 'E' then
            let d2 := rest2.takeWhile Char.isDigit
            if d2.isEmpty then none
            else some ⟨c :: (d1 ++ e :: d2), [some d1, some d2]⟩
          else none
        | [] => none
    else none
  | [] => none

def seSEsearch : Str → Option MatchRes
  | [] => none
  | c :: rest =>
    match seAtPos (c :: rest) with
    | some m => some m
    | none => seSEsearch rest

/-- Modelled from the spec: the standalone episode rule, `(\d+)`. -/
def epDsearch : Str → Option MatchRes
  | [] => none
  | c :: rest =>
    if c.isDigit then some ⟨(c :: rest).takeWhile Char.isDigit, [some ((c :: rest).takeWhile Char.isDigit)]⟩
    else epDsearch rest

/-- Scenario A pattern set with properly capturing technical rules. -/
def psAmd : PatSet :=
  { season_episode := some seSEsearch
    episode := some epDsearch
    resolution := some resGpat
    video_codec := some vcGpat }

/-- Scenario A pattern set with the rules exactly as the spec spells them,
    i.e. without capture groups. -/
def psLit : PatSet :=
  { season_episode := some seSEsearch
    episode := some epDsearch
    resolution := some resNGpat
    video_codec := some vcNGpat }

/-- A pattern set from which the season_episode and episode rules are absent. -/
def psNoSE : PatSet :=
  { resolution := some resGpat
    video_codec := some vcGpat }

def cnNumerals : Str := ['一', '二', '三', '四', '五', '六', '七', '八', '九', '十']

/-- The cn_num_map table of MediaManager.__init__ (line 46). -/
def cnNumMap (c : Char) : Option Nat :=
  if c = '一' then some 1 else if c = '二' then some 2 else if c = '三' then some 3
  else if c = '四' then some 4 else if c = '五' then some 5 else if c = '六' then some 6
  else if c = '七' then some 7 else if c = '八' then some 8 else if c = '九' then some 9
  else if c = '十' then some 10 else none

/-- Scanner for `re.search(r'第([一二三四五六七八九十])季', s)` (line 226). -/
def findDiJi : Str → Option Char
  | a :: b :: c :: rest =>
    if a == '第' && cnNumerals.contains b && c == '季' then some b
    else findDiJi (b :: c :: rest)
  | _ => none

/-- The smart season-correction block of process_directory (lines 225-231):
    only a default season "1" is corrected, and only when the API title
    carries a mapped Chinese-numeral season marker. -/
def seasonCorrect (season : Str) (api_title : Str) : Str :=
  if season = oneStr then
    match findDiJi api_title with
    | some c =>
      match cnNumMap c with
      | some n => natDec n
      | none => season
    | none => season
  else season

/-- State machine for `re.sub(r'\s*第[一二三四五六七八九十]季', '', s)`
    (line 234): pending whitespace is dropped together with a following
    marker, otherwise flushed verbatim. -/
def sdGo : Str → Str → Str
  | pend, [] => pend
  | pend, a :: rest =>
    if isWS a then sdGo (pend ++ [a]) rest
    else
      match rest with
      | b :: c :: r2 =>
        if a == '第' && cnNumerals.contains b && c == '季' then sdGo [] r2
        else pend ++ a :: sdGo [] (b :: c :: r2)
      | [b] => pend ++ a :: sdGo [] [b]
      | [] => pend ++ [a]

def stripDiJiSub (s : Str) : Str := sdGo [] s

/-- The exception taxonomy of bangumi_api.py: NotFoundError and NetworkError
    are both subclasses of APIError. -/
inductive ApiErr
  | notFound | network | apiError
deriving DecidableEq

/-- One entry of the search response list; only the id key is consumed by
    the control flow (a missing id raises KeyError inside search_subject). -/
structure SearchItem where
  id : Option Nat
deriving DecidableEq

/-- The subject-details payload fields get_details_for_scraping reads. -/
structure SubjectDetails where
  name_cn : Option Str := none
  name : Option Str := none
  eps_count : Option Nat := none
  eps : Option Nat := none
deriving DecidableEq

/-- The dictionary get_details_for_scraping assembles (only the fields the
    resolver reads downstream). -/
structure ScrapeRecord where
  bangumi_id : Nat
  name_cn : Str
  total_episodes : Nat
deriving DecidableEq

/-- The External Title Source collaborator: the outcome of each underlying
    HTTP request, per query string and subject id. -/
structure ApiBehavior where
  searchR : Str → Except ApiErr (Option (List SearchItem))
  detailsR : Nat → Except ApiErr SubjectDetails
  episodesR : Nat → Except ApiErr Unit

/-- BangumiAPIClient.search_subject (lines 52-66): catches NotFoundError,
    IndexError and KeyError only; NetworkError and plain APIError propagate. -/
def search_subject (r : Except ApiErr (Option (List SearchItem))) :
    Except ApiErr (Option SearchItem) :=
  match r with
  | .error e => if e = .notFound then .ok none else .error e
  | .ok none => .ok none
  | .ok (some []) => .ok none
  | .ok (some (first :: _)) =>
    match first.id with
    | none => .ok none
    | some _ => .ok (some first)

def weiZhi : Str := "未知".toList

/-- Line 106: `details.get('name_cn') or details.get('name', '未知')`. -/
def recName (d : SubjectDetails) : Str :=
  match d.name_cn with
  | some v => if v = [] then d.name.getD weiZhi else v
  | none => d.name.getD weiZhi

/-- Line 109: `details.get('eps_count') or details.get('eps', 0)`. -/
def recEps (d : SubjectDetails) : Nat :=
  match d.eps_count with
  | some n => if n = 0 then d.eps.getD 0 else n
  | none => d.eps.getD 0

/-- The try-block of get_details_for_scraping (lines 88-116): the detail and
    episode fetches, any APIError (hence any of the modelled errors)
    degrading to None. -/
def fetchTail (b : ApiBehavior) (i : Nat) : Except ApiErr (Option ScrapeRecord) :=
  match b.detailsR i with
  | .error _ => .ok none
  | .ok d =>
    match b.episodesR i with
    | .error _ => .ok none
    | .ok _ => .ok (some ⟨i, recName d, recEps d⟩)

/-- BangumiAPIClient.get_details_for_scraping (lines 81-116): the search
    step runs outside the try, so its uncaught errors propagate. -/
def get_details_for_scraping (b : ApiBehavior) (term : Str) :
    Except ApiErr (Option ScrapeRecord) :=
  match search_subject (b.searchR term) with
  | .error e => .error e
  | .ok none => .ok none
  | .ok (some item) =>
    match item.id with
    | none => .ok none
    | some i => fetchTail b i

abbrev Cache := List (Str × Option ScrapeRecord)

def cacheLookup : Cache → Str → Option (Option ScrapeRecord)
  | [], _ => none
  | kv :: rest, q => if q = kv.1 then some kv.2 else cacheLookup rest q

/-- Line 146: `f"{title} Season {season}" if season and season != '1' else title`. -/
def buildQuery (title : Str) (season : Option Str) : Str :=
  match season with
  | some s => if s ≠ [] ∧ s ≠ oneStr then title ++ " Season ".toList ++ s else title
  | none => title

/-- MediaManager._get_bangumi_details (lines 140-152), the Boolean recording
    whether the External Title Source was actually invoked. -/
def getBangumiDetails (b : ApiBehavior) (cache : Cache) (title : Str)
    (season : Option Str) : Except ApiErr (Option ScrapeRecord × Cache × Bool) :=
  let q := buildQuery title season
  match cacheLookup cache q with
  | some v => .ok (v, cache, false)
  | none =>
    match get_details_for_scraping b q with
    | .error e => .error e
    | .ok d => .ok (d, (q, d) :: cache, true)

/-- The per-file resolution block of process_directory (lines 216-236):
    lookup guarded on a truthy, non-sentinel title; on a found record the
    season correction, title normalization and episode hint are applied. -/
def resolveStep (b : ApiBehavior) (cache : Cache) (info : MediaInfo) :
    Except ApiErr (MediaInfo × Cache × Bool) :=
  if info.title ≠ [] ∧ info.title ≠ unknownTitle then
    match getBangumiDetails b cache info.title (some info.season) with
    | .error e => .error e
    | .ok dcf =>
      match dcf.1 with
      | some rcd =>
        .ok ({ info with
                title := pyStrip (stripDiJiSub rcd.name_cn)
                season := seasonCorrect info.season rcd.name_cn
                bangumi_eps := some rcd.total_episodes }, dcf.2.1, dcf.2.2)
      | none => .ok (info, dcf.2.1, dcf.2.2)
  else .ok (info, cache, false)

inductive PyErr
  | parseErr (msg : Str)
  | apiErr (e : ApiErr)
deriving DecidableEq

/-- One iteration of the process_directory file loop (parse then resolve);
    an uncaught Python exception surfaces as `Except.error`. -/
def processStem (b : ApiBehavior) (ps : PatSet) (cache : Cache) (stem : Str) :
    Except PyErr (MediaInfo × Cache × Bool) :=
  match parse_filename ps stem with
  | .error m => .error (.parseErr m)
  | .ok info =>
    match resolveStep b cache info with
    | .error e => .error (.apiErr e)
    | .ok r => .ok r

/-- The process_directory loop over a batch of file stems: an exception in
    one iteration aborts the loop (main.py has no per-file handler). -/
def processBatch (b : ApiBehavior) (ps : PatSet) : Cache → List Str →
    Except PyErr (List MediaInfo × Cache)
  | cache, [] => .ok ([], cache)
  | cache, stem :: rest =>
    (processStem b ps cache stem).bind fun mcf =>
      (processBatch b ps mcf.2.1 rest).bind fun msc =>
        .ok (mcf.1 :: msc.1, msc.2)

/-- True unless the batch aborted with an External-Title-Source exception. -/
def notApiAbort {α : Type} : Except PyErr α → Bool
  | .error (.apiErr _) => false
  | _ => true

/-- A sequence of _get_bangumi_details calls within one run, threading the
    cache and logging each query that reached the External Title Source. -/
def runCalls (b : ApiBehavior) : Cache → List (Str × Option Str) →
    Except ApiErr (List (Str × Option ScrapeRecord) × Cache × List Str)
  | cache, [] => .ok ([], cache, [])
  | cache, call :: rest =>
    (getBangumiDetails b cache call.1 call.2).bind fun dcf =>
      (runCalls b dcf.2.1 rest).bind fun rcl =>
        .ok ((buildQuery call.1 call.2, dcf.1) :: rcl.1, rcl.2.1,
             if dcf.2.2 then buildQuery call.1 call.2 :: rcl.2.2 else rcl.2.2)

/- Helper lemmas. -/

lemma titleSeason_none_of_no_open (s : Str) (h : ∀ c ∈ s, c ≠ '[') :
    titleSeasonSearch s = none := by
  induction s with
  | nil => rfl
  | cons c rest ih =>
    rw [titleSeasonSearch]
    rw [if_neg (h c (List.mem_cons_self c rest))]
    exact ih fun c2 hc => h c2 (List.mem_cons_of_mem _ hc)

lemma fbGo_none_of_no_open (s : Str) (h : ∀ c ∈ s, isOpenB c = false) :
    fbGo none s = [] := by
  induction s with
  | nil => rfl
  | cons c rest ih =>
    rw [fbGo]
    rw [if_neg (by rw [h c (List.mem_cons_self c rest)]; exact Bool.false_ne_true)]
    exact ih fun c2 hc => h c2 (List.mem_cons_of_mem _ hc)

lemma findBrackets_nil_of_no_open (s : Str) (h : ∀ c ∈ s, isOpenB c = false) :
    findBrackets s = [] := fbGo_none_of_no_open s h

lemma sbGo_none_of_no_open (s : Str) (h : ∀ c ∈ s, isOpenB c = false) :
    sbGo none s = s := by
  induction s with
  | nil => rfl
  | cons c rest ih =>
    rw [sbGo]
    rw [if_neg (by rw [h c (List.mem_cons_self c rest)]; exact Bool.false_ne_true)]
    rw [ih fun c2 hc => h c2 (List.mem_cons_of_mem _ hc)]

lemma stripBrAll_id_of_no_open (s : Str) (h : ∀ c ∈ s, isOpenB c = false) :
    stripBrAll s = s := sbGo_none_of_no_open s h

lemma natDecGo_len (fuel : Nat) : ∀ (n : Nat) (acc : Str),
    acc.length ≤ (natDecGo fuel n acc).length := by
  induction fuel with
  | zero => intro n acc; exact le_refl _
  | succ fuel ih =>
    intro n acc
    rw [natDecGo]
    by_cases hn : n = 0
    · rw [if_pos hn]
    · rw [if_neg hn]
      exact le_trans (Nat.le_succ _) (ih (n / 10) (Nat.digitChar (n % 10) :: acc))

lemma natDec_len (n : Nat) : 1 ≤ (natDec n).length := by
  rw [natDec]
  by_cases hn : n = 0
  · rw [if_pos hn]; exact le_refl _
  · rw [if_neg hn, natDecGo, if_neg hn]
    exact natDecGo_len n (n / 10) [Nat.digitChar (n % 10)]

lemma pad02_len (n : Int) : 2 ≤ (pad02 n).length := by
  rw [pad02]
  split
  · simpa using Nat.succ_le_succ (natDec_len n.natAbs)
  · show 2 ≤ (if (natDec n.toNat).length < 2 then '0' :: natDec n.toNat
              else natDec n.toNat).length
    split
    · simpa using Nat.succ_le_succ (natDec_len n.toNat)
    · next hl => exact Nat.le_of_not_lt hl

lemma applyTech_episode (k : TechKey) (v : Str) (info : PInfo) :
    (applyTech k v info).episode = info.episode := by
  cases k <;> simp only [applyTech] <;> split <;> rfl

lemma tryCats_episode (content : Str) (info : PInfo)
    (l : List (TechKey × Option Pat)) (i2 : PInfo)
    (h : tryCats content info l = .ok (some i2)) : i2.episode = info.episode := by
  induction l with
  | nil => simp [tryCats] at h
  | cons kp rest ih =>
    rw [tryCats] at h
    split at h
    · exact ih h
    · split at h
      · exact ih h
      · split at h
        · exact Except.noConfusion h
        · simp only [Except.ok.injEq, Option.some.injEq] at h
          rw [← h]
          exact applyTech_episode _ _ _

lemma processBrackets_episode (ps : PatSet) (bs : List (Str × Str)) :
    ∀ (temp : Str) (info : PInfo) (t2 : Str) (i2 : PInfo),
    processBrackets ps bs temp info = .ok (t2, i2) → i2.episode = info.episode := by
  induction bs with
  | nil =>
    intro temp info t2 i2 h
    simp only [processBrackets, Except.ok.injEq, Prod.mk.injEq] at h
    rw [← h.2]
  | cons wc rest ih =>
    intro temp info t2 i2 h
    rw [processBrackets] at h
    split at h
    · exact Except.noConfusion h
    · exact ih temp info t2 i2 h
    · next info3 heq =>
        rw [ih _ info3 t2 i2 h]
        exact tryCats_episode wc.2 info (techRules ps) info3 heq

lemma step1_episode (w : Str) (info : PInfo) :
    (step1 w info).2.episode = info.episode := by
  rw [step1]
  split <;> rfl

lemma seUpdateSeason_episode (m : MatchRes) (info : PInfo) (i2 : PInfo)
    (h : seUpdateSeason m info = .ok i2) : i2.episode = info.episode := by
  rw [seUpdateSeason] at h
  split at h
  · split at h
    · exact Except.noConfusion h
    · split at h
      · exact Except.noConfusion h
      · simp only [Except.ok.injEq] at h
        rw [← h]
  · simp only [Except.ok.injEq] at h
    rw [← h]

lemma step3_episode (ps : PatSet) (w : Str) (info : PInfo) (w2 : Str) (i2 : PInfo)
    (h : step3 ps w info = .ok (w2, i2)) :
    i2.episode = info.episode ∨ ∃ n : Int, i2.episode = some (pad02 n) := by
  rw [step3] at h
  split at h
  · split at h
    · split at h
      · exact Except.noConfusion h
      · split at h
        · exact Except.noConfusion h
        · split at h
          · exact Except.noConfusion h
          · next n2 heq =>
              simp only [Except.ok.injEq, Prod.mk.injEq] at h
              exact Or.inr ⟨n2, by rw [← h.2]⟩
    · split at h
      · split at h
        · exact Except.noConfusion h
        · split at h
          · exact Except.noConfusion h
          · next n heq =>
              simp only [Except.ok.injEq, Prod.mk.injEq] at h
              exact Or.inr ⟨n, by rw [← h.2]⟩
      · simp only [Except.ok.injEq, Prod.mk.injEq] at h
        exact Or.inl (by rw [← h.2])
  · simp only [Except.ok.injEq, Prod.mk.injEq] at h
    exact Or.inl (by rw [← h.2])

lemma step4_episode (w : Str) (info : PInfo) :
    (step4 w info).episode = info.episode := by
  rw [step4]
  match info.title with
  | some _ => rfl
  | none => rfl

/-- Monotonicity relation for the step-2 state: the five once-only technical
    fields never lose or change a value, and remarks only grows at the end. -/
def monoPInfo (a b : PInfo) : Prop :=
  (∀ w, a.resolution = some w → b.resolution = some w)
  ∧ (∀ w, a.video_codec = some w → b.video_codec = some w)
  ∧ (∀ w, a.audio_codec = some w → b.audio_codec = some w)
  ∧ (∀ w, a.subtitle = some w → b.subtitle = some w)
  ∧ (∀ w, a.group = some w → b.group = some w)
  ∧ (∃ l, b.remarks = a.remarks ++ l)

lemma monoPInfo_refl (a : PInfo) : monoPInfo a a :=
  ⟨fun _ h => h, fun _ h => h, fun _ h => h, fun _ h => h, fun _ h => h,
   ⟨[], (List.append_nil _).symm⟩⟩

lemma monoPInfo_trans {a b c : PInfo} (h1 : monoPInfo a b) (h2 : monoPInfo b c) :
    monoPInfo a c := by
  obtain ⟨r1, v1, a1, s1, g1, l1, hl1⟩ := h1
  obtain ⟨r2, v2, a2, s2, g2, l2, hl2⟩ := h2
  exact ⟨fun w h => r2 w (r1 w h), fun w h => v2 w (v1 w h), fun w h => a2 w (a1 w h),
         fun w h => s2 w (s1 w h), fun w h => g2 w (g1 w h),
         ⟨l1 ++ l2, by rw [hl2, hl1, List.append_assoc]⟩⟩

lemma applyTech_mono (k : TechKey) (v : Str) (info : PInfo) :
    monoPInfo info (applyTech k v info) := by
  cases k
  case src =>
    exact ⟨fun _ h => h, fun _ h => h, fun _ h => h, fun _ h => h, fun _ h => h, ⟨[v], rfl⟩⟩
  case resolution =>
    rw [applyTech]
    split
    · next hr =>
        refine ⟨fun w h => ?_, fun _ h => h, fun _ h => h, fun _ h => h, fun _ h => h,
                ⟨[], (List.append_nil _).symm⟩⟩
        rw [hr] at h
        exact Option.noConfusion h
    · exact monoPInfo_refl info
  case video_codec =>
    rw [applyTech]
    split
    · next hr =>
        refine ⟨fun _ h => h, fun w h => ?_, fun _ h => h, fun _ h => h, fun _ h => h,
                ⟨[], (List.append_nil _).symm⟩⟩
        rw [hr] at h
        exact Option.noConfusion h
    · exact monoPInfo_refl info
  case audio_codec =>
    rw [applyTech]
    split
    · next hr =>
        refine ⟨fun _ h => h, fun _ h => h, fun w h => ?_, fun _ h => h, fun _ h => h,
                ⟨[], (List.append_nil _).symm⟩⟩
        rw [hr] at h
        exact Option.noConfusion h
    · exact monoPInfo_refl info
  case subtitle =>
    rw [applyTech]
    split
    · next hr =>
        refine ⟨fun _ h => h, fun _ h => h, fun _ h => h, fun w h => ?_, fun _ h => h,
                ⟨[], (List.append_nil _).symm⟩⟩
        rw [hr] at h
        exact Option.noConfusion h
    · exact monoPInfo_refl info
  case grp =>
    rw [applyTech]
    split
    · next hr =>
        refine ⟨fun _ h => h, fun _ h => h, fun _ h => h, fun _ h => h, fun w h => ?_,
                ⟨[], (List.append_nil _).symm⟩⟩
        rw [hr] at h
        exact Option.noConfusion h
    · exact monoPInfo_refl info

lemma tryCats_mono (content : Str) (info : PInfo)
    (l : List (TechKey × Option Pat)) (i2 : PInfo)
    (h : tryCats content info l = .ok (some i2)) : monoPInfo info i2 := by
  induction l with
  | nil => simp [tryCats] at h
  | cons kp rest ih =>
    rw [tryCats] at h
    split at h
    · exact ih h
    · split at h
      · exact ih h
      · split at h
        · exact Except.noConfusion h
        · simp only [Except.ok.injEq, Option.some.injEq] at h
          rw [← h]
          exact applyTech_mono _ _ _

lemma processBrackets_mono (ps : PatSet) (bs : List (Str × Str)) :
    ∀ (temp : Str) (info : PInfo) (t2 : Str) (i2 : PInfo),
    processBrackets ps bs temp info = .ok (t2, i2) → monoPInfo info i2 := by
  induction bs with
  | nil =>
    intro temp info t2 i2 h
    simp only [processBrackets, Except.ok.injEq, Prod.mk.injEq] at h
    rw [← h.2]
    exact monoPInfo_refl info
  | cons wc rest ih =>
    intro temp info t2 i2 h
    rw [processBrackets] at h
    split at h
    · exact Except.noConfusion h
    · exact ih temp info t2 i2 h
    · next info3 heq =>
        exact monoPInfo_trans (tryCats_mono wc.2 info (techRules ps) info3 heq)
          (ih _ info3 t2 i2 h)

lemma search_subject_ok (r : Except ApiErr (Option (List SearchItem)))
    (hr : ∀ e, r = .error e → e = .notFound) :
    ∃ s, search_subject r = .ok s := by
  match r with
  | .error e =>
    show ∃ s, (if e = .notFound then Except.ok none else Except.error e) = .ok s
    rw [if_pos (hr e rfl)]
    exact ⟨none, rfl⟩
  | .ok none => exact ⟨none, rfl⟩
  | .ok (some []) => exact ⟨none, rfl⟩
  | .ok (some (first :: rest)) =>
    obtain ⟨oid⟩ := first
    match oid with
    | none => exact ⟨none, rfl⟩
    | some i => exact ⟨some ⟨some i⟩, rfl⟩

lemma fetchTail_ok (b : ApiBehavior) (i : Nat) : ∃ d, fetchTail b i = .ok d := by
  rw [fetchTail]
  cases b.detailsR i with
  | error e => exact ⟨none, rfl⟩
  | ok d =>
    cases b.episodesR i with
    | error e => exact ⟨none, rfl⟩
    | ok u => exact ⟨_, rfl⟩

lemma gdfs_ok (b : ApiBehavior)
    (hb : ∀ q e, b.searchR q = .error e → e = .notFound) (q : Str) :
    ∃ d, get_details_for_scraping b q = .ok d := by
  rw [get_details_for_scraping]
  obtain ⟨s, hs⟩ := search_subject_ok (b.searchR q) (hb q)
  rw [hs]
  match s with
  | none => exact ⟨none, rfl⟩
  | some item =>
    obtain ⟨oid⟩ := item
    match oid with
    | none => exact ⟨none, rfl⟩
    | some i => exact fetchTail_ok b i

lemma getBD_hit (b : ApiBehavior) (cache : Cache) (t : Str) (se : Option Str)
    (v : Option ScrapeRecord) (h : cacheLookup cache (buildQuery t se) = some v) :
    getBangumiDetails b cache t se = .ok (v, cache, false) := by
  rw [getBangumiDetails]
  show (match cacheLookup cache (buildQuery t se) with
        | some v => Except.ok (v, cache, false)
        | none =>
          match get_details_for_scraping b (buildQuery t se) with
          | .error e => Except.error e
          | .ok d => Except.ok (d, (buildQuery t se, d) :: cache, true)) = _
  rw [h]

lemma getBD_miss (b : ApiBehavior) (cache : Cache) (t : Str) (se : Option Str)
    (d : Option ScrapeRecord) (h : cacheLookup cache (buildQuery t se) = none)
    (hf : get_details_for_scraping b (buildQuery t se) = .ok d) :
    getBangumiDetails b cache t se = .ok (d, (buildQuery t se, d) :: cache, true) := by
  rw [getBangumiDetails]
  show (match cacheLookup cache (buildQuery t se) with
        | some v => Except.ok (v, cache, false)
        | none =>
          match get_details_for_scraping b (buildQuery t se) with
          | .error e => Except.error e
          | .ok d => Except.ok (d, (buildQuery t se, d) :: cache, true)) = _
  rw [h, hf]

lemma getBD_miss_err (b : ApiBehavior) (cache : Cache) (t : Str) (se : Option Str)
    (e : ApiErr) (h : cacheLookup cache (buildQuery t se) = none)
    (hf : get_details_for_scraping b (buildQuery t se) = .error e) :
    getBangumiDetails b cache t se = .error e := by
  rw [getBangumiDetails]
  show (match cacheLookup cache (buildQuery t se) with
        | some v => Except.ok (v, cache, false)
        | none =>
          match get_details_for_scraping b (buildQuery t se) with
          | .error e => Except.error e
          | .ok d => Except.ok (d, (buildQuery t se, d) :: cache, true)) = _
  rw [h, hf]

lemma getBD_ok (b : ApiBehavior)
    (hb : ∀ q e, b.searchR q = .error e → e = .notFound)
    (cache : Cache) (t : Str) (se : Option Str) :
    ∃ r, getBangumiDetails b cache t se = .ok r := by
  cases hc : cacheLookup cache (buildQuery t se) with
  | some v => exact ⟨_, getBD_hit b cache t se v hc⟩
  | none =>
    obtain ⟨d, hd⟩ := gdfs_ok b hb (buildQuery t se)
    exact ⟨_, getBD_miss b cache t se d hc hd⟩

lemma resolveStep_ok (b : ApiBehavior)
    (hb : ∀ q e, b.searchR q = .error e → e = .notFound)
    (cache : Cache) (info : MediaInfo) :
    ∃ r, resolveStep b cache info = .ok r := by
  rw [resolveStep]
  split
  · obtain ⟨dcf, hr⟩ := getBD_ok b hb cache info.title (some info.season)
    rw [hr]
    obtain ⟨d1, c2f⟩ := dcf
    cases d1
    · exact ⟨_, rfl⟩
    · exact ⟨_, rfl⟩
  · exact ⟨_, rfl⟩

lemma findDiJi_mem (t : Str) : ∀ c, findDiJi t = some c → cnNumerals.contains c = true := by
  induction t with
  | nil => intro c h; exact Option.noConfusion h
  | cons a rest ih =>
    intro c h
    match rest, ih with
    | [], _ => exact Option.noConfusion h
    | [b], _ => exact Option.noConfusion h
    | b :: d :: r2, ih =>
      rw [findDiJi] at h
      split at h
      · next hcond =>
          have hb : cnNumerals.contains b = true := by
            have h1 := (Bool.and_eq_true _ _).mp hcond
            exact ((Bool.and_eq_true _ _).mp h1.1).2
          simp only [Option.some.injEq] at h
          rw [← h]
          exact hb
      · exact ih c h

lemma cn_mapped (c : Char) (h : cnNumerals.contains c = true) :
    ∃ n, cnNumMap c = some n ∧ 1 ≤ n ∧ n ≤ 10 := by
  have hm : c ∈ cnNumerals := by
    simpa using h
  simp only [cnNumerals, List.mem_cons, List.not_mem_nil, or_false] at hm
  rcases hm with h1 | h1 | h1 | h1 | h1 | h1 | h1 | h1 | h1 | h1 <;> subst h1
  · exact ⟨1, rfl, by decide, by decide⟩
  · exact ⟨2, rfl, by decide, by decide⟩
  · exact ⟨3, rfl, by decide, by decide⟩
  · exact ⟨4, rfl, by decide, by decide⟩
  · exact ⟨5, rfl, by decide, by decide⟩
  · exact ⟨6, rfl, by decide, by decide⟩
  · exact ⟨7, rfl, by decide, by decide⟩
  · exact ⟨8, rfl, by decide, by decide⟩
  · exact ⟨9, rfl, by decide, by decide⟩
  · exact ⟨10, rfl, by decide, by decide⟩

lemma exc_bind_ok {ε α β : Type} (a : α) (f : α → Except ε β) :
    (Except.ok a : Except ε α).bind f = f a := rfl

lemma exc_bind_err {ε α β : Type} (e : ε) (f : α → Except ε β) :
    (Except.error e : Except ε α).bind f = .error e := rfl

lemma step2_episode (ps : PatSet) (w : Str) (info : PInfo) (w2 : Str) (i2 : PInfo)
    (h : step2 ps w info = .ok (w2, i2)) : i2.episode = info.episode :=
  processBrackets_episode ps (findBrackets w) w info w2 i2 h

lemma processStem_err (b : ApiBehavior)
    (hb : ∀ q e, b.searchR q = .error e → e = .notFound)
    (ps : PatSet) (cache : Cache) (stem : Str) (e : PyErr)
    (h : processStem b ps cache stem = .error e) : ∃ m, e = .parseErr m := by
  rw [processStem] at h
  split at h
  · next m heq =>
      simp only [Except.error.injEq] at h
      exact ⟨m, h.symm⟩
  · next info heq =>
      obtain ⟨r, hr⟩ := resolveStep_ok b hb cache info
      rw [hr] at h
      exact Except.noConfusion h

/- Concrete inputs and behaviours used by the closed theorems. -/

/-- The Scenario A filename stem. -/
def stemA : Str := "[Group][Spy x Family Season 3][1080p][x264] - 05".toList

/-- An External Title Source whose transport always fails with a network
    error. -/
def bNet : ApiBehavior :=
  { searchR := fun _ => .error .network
    detailsR := fun _ => .error .apiError
    episodesR := fun _ => .error .apiError }

/-- An External Title Source that always answers an empty search result
    (a well-behaved negative answer). -/
def bNeg : ApiBehavior :=
  { searchR := fun _ => .ok none
    detailsR := fun _ => .ok {}
    episodesR := fun _ => .ok () }

/-- Characters that are neither brackets nor digits. -/
def plainChar (c : Char) : Bool := !isOpenB c && !isCloseB c && !c.isDigit

def qA : Str := "ShowA".toList

/-- A PInfo whose resolution field is already claimed. -/
def infoR : PInfo := { resolution := some "720p".toList }

/-- A decomposition record carrying the sentinel title. -/
def miU : MediaInfo :=
  { group := none, title := unknownTitle, season := oneStr, episode := none,
    resolution := none, video_codec := none, audio_codec := none, subtitle := none,
    remarks := none, bangumi_eps := none }

/- Claim theorems. -/

/-- Claim C1. The claim states that decompose never fails and that a rule
    name absent from the Pattern Set is treated as never matching.  The code
    violates it: with the season_episode (and episode) rules absent,
    `patterns.get('season_episode', '')` compiles the empty pattern, which
    always matches, and the unconditional `se_match.group(1)` /
    `se_match.group(2)` access then raises IndexError, so parse_filename
    raises on as simple a stem as "abc". -/
theorem c1_missing_episode_rule_raises :
    parse_filename psNoSE ("abc".toList) = .error ("no such group".toList) := rfl

/-- Claim C2, counterexample. A network failure raised by the search step is
    not caught anywhere (search_subject catches only NotFoundError,
    IndexError, KeyError), so the first file aborts the whole batch and the
    second file is never processed, contradicting the claim that any error
    from the External Title Source is treated as "no record found". -/
theorem c2_network_error_aborts_batch :
    processBatch bNet psAmd []
      ["[Spy x Family Season 3] - 05".toList, "[Other Show Season 2] - 03".toList]
      = .error (.apiErr .network) := rfl

/-- Claim C2, amended. When the External Title Source only ever fails its
    search step with not-found (malformed responses and all detail-phase
    errors being absorbed by the client), no file's resolution aborts the
    batch: the batch can only abort with a parse error, never with an
    External-Title-Source error. -/
theorem c2_caught_errors_never_abort (b : ApiBehavior)
    (hb : ∀ q e, b.searchR q = .error e → e = .notFound)
    (ps : PatSet) (cache : Cache) (stems : List Str) :
    notApiAbort (processBatch b ps cache stems) = true := by
  induction stems generalizing cache with
  | nil => rfl
  | cons stem rest ih =>
    rw [processBatch]
    cases hs : processStem b ps cache stem with
    | error e =>
      obtain ⟨m, hm⟩ := processStem_err b hb ps cache stem e hs
      subst hm
      rw [exc_bind_err]
      rfl
    | ok r =>
      simp only [exc_bind_ok]
      cases hb2 : processBatch b ps r.2.1 rest with
      | error e2 =>
        rw [exc_bind_err]
        have hi := ih r.2.1
        rw [hb2] at hi
        exact hi
      | ok pr =>
        rfl

/-- Witness for C2: a batch resolved against a well-behaved negative source
    does not abort. -/
theorem c2_caught_errors_never_abort_witness :
    notApiAbort (processBatch bNeg psAmd []
      ["[Spy x Family Season 3] - 05".toList]) = true :=
  c2_caught_errors_never_abort bNeg (fun _ _ h => Except.noConfusion h) psAmd []
    ["[Spy x Family Season 3] - 05".toList]

/-- Claim C3. For any sequence of resolve calls in one run: if a query is
    already cached, the External Title Source is never invoked for it again
    and every result for it is the cached value; if it starts uncached, it
    is fetched at most once and all calls building that query string return
    the same value (a cached negative included, since the cached value may
    be `none`). -/
theorem c3_cache_single_fetch (b : ApiBehavior) (calls : List (Str × Option Str)) :
    ∀ (cache : Cache) (rs : List (Str × Option ScrapeRecord)) (cf : Cache)
      (log : List Str) (q : Str),
    runCalls b cache calls = .ok (rs, cf, log) →
    ((∀ v, cacheLookup cache q = some v →
        log.count q = 0 ∧ (∀ r, (q, r) ∈ rs → r = v) ∧ cacheLookup cf q = some v)
     ∧ (cacheLookup cache q = none →
        log.count q ≤ 1 ∧ ∀ r1 r2, (q, r1) ∈ rs → (q, r2) ∈ rs → r1 = r2)) := by
  induction calls with
  | nil =>
    intro cache rs cf log q h
    simp only [runCalls, Except.ok.injEq, Prod.mk.injEq] at h
    obtain ⟨hrs, hcf, hlog⟩ := h
    subst hrs; subst hcf; subst hlog
    constructor
    · intro v hv
      exact ⟨by simp, fun r hr => absurd hr (by simp), hv⟩
    · intro hq
      exact ⟨by simp, fun r1 r2 h1 h2 => absurd h1 (by simp)⟩
  | cons call rest ih =>
    intro cache rs cf log q h
    rw [runCalls] at h
    cases hl : cacheLookup cache (buildQuery call.1 call.2) with
    | some v' =>
      rw [getBD_hit b cache call.1 call.2 v' hl] at h
      simp only [exc_bind_ok] at h
      cases hrc : runCalls b cache rest with
      | error e => rw [hrc, exc_bind_err] at h; exact Except.noConfusion h
      | ok rcl =>
        obtain ⟨rs', cf', log'⟩ := rcl
        rw [hrc] at h
        simp [exc_bind_ok] at h
        obtain ⟨hrs, hcf, hlog⟩ := h
        subst hrs; subst hcf; subst hlog
        have IH := ih cache rs' cf' log' q hrc
        constructor
        · intro v hv
          obtain ⟨ihc, ihm, ihf⟩ := IH.1 v hv
          refine ⟨ihc, ?_, ihf⟩
          intro r hr
          rcases List.mem_cons.mp hr with hh | ht
          · have hq : q = buildQuery call.1 call.2 := congrArg Prod.fst hh
            have hrv : r = v' := congrArg Prod.snd hh
            rw [hq] at hv
            rw [hl] at hv
            injection hv with hv'
            rw [hrv, ← hv']
          · exact ihm r ht
        · intro hq
          have hne : q ≠ buildQuery call.1 call.2 := by
            intro he; rw [he, hl] at hq; exact Option.noConfusion hq
          obtain ⟨ihc, ihp⟩ := IH.2 hq
          refine ⟨ihc, ?_⟩
          intro r1 r2 h1 h2
          rcases List.mem_cons.mp h1 with hh1 | ht1
          · exact absurd (congrArg Prod.fst hh1) hne
          rcases List.mem_cons.mp h2 with hh2 | ht2
          · exact absurd (congrArg Prod.fst hh2) hne
          exact ihp r1 r2 ht1 ht2
    | none =>
      cases hg : get_details_for_scraping b (buildQuery call.1 call.2) with
      | error e =>
        rw [getBD_miss_err b cache call.1 call.2 e hl hg] at h
        exact Except.noConfusion h
      | ok d =>
        rw [getBD_miss b cache call.1 call.2 d hl hg] at h
        simp only [exc_bind_ok] at h
        cases hrc : runCalls b ((buildQuery call.1 call.2, d) :: cache) rest with
        | error e => rw [hrc, exc_bind_err] at h; exact Except.noConfusion h
        | ok rcl =>
          obtain ⟨rs', cf', log'⟩ := rcl
          rw [hrc] at h
          simp [exc_bind_ok] at h
          obtain ⟨hrs, hcf, hlog⟩ := h
          subst hrs; subst hcf; subst hlog
          have IH := ih ((buildQuery call.1 call.2, d) :: cache) rs' cf' log' q hrc
          constructor
          · intro v hv
            have hne : q ≠ buildQuery call.1 call.2 := by
              intro he; rw [he, hl] at hv; exact Option.noConfusion hv
            have hv2 : cacheLookup ((buildQuery call.1 call.2, d) :: cache) q = some v := by
              rw [cacheLookup, if_neg hne]
              exact hv
            obtain ⟨ihc, ihm, ihf⟩ := IH.1 v hv2
            refine ⟨?_, ?_, ihf⟩
            · rw [List.count_cons_of_ne hne]
              exact ihc
            · intro r hr
              rcases List.mem_cons.mp hr with hh | ht
              · exact absurd (congrArg Prod.fst hh) hne
              · exact ihm r ht
          · intro hq
            by_cases heq : q = buildQuery call.1 call.2
            · subst heq
              have hv2 : cacheLookup ((buildQuery call.1 call.2, d) :: cache)
                  (buildQuery call.1 call.2) = some d := by
                rw [cacheLookup, if_pos rfl]
              obtain ⟨ihc, ihm, ihf⟩ := IH.1 d hv2
              constructor
              · rw [List.count_cons_self, ihc]
              · intro r1 r2 h1 h2
                have e1 : r1 = d := by
                  rcases List.mem_cons.mp h1 with hh | ht
                  · exact congrArg Prod.snd hh
                  · exact ihm r1 ht
                have e2 : r2 = d := by
                  rcases List.mem_cons.mp h2 with hh | ht
                  · exact congrArg Prod.snd hh
                  · exact ihm r2 ht
                rw [e1, e2]
            · have hv2 : cacheLookup ((buildQuery call.1 call.2, d) :: cache) q = none := by
                rw [cacheLookup, if_neg heq]
                exact hq
              obtain ⟨ihc, ihp⟩ := IH.2 hv2
              constructor
              · rw [List.count_cons_of_ne heq]
                exact ihc
              · intro r1 r2 h1 h2
                rcases List.mem_cons.mp h1 with hh1 | ht1
                · exact absurd (congrArg Prod.fst hh1) heq
                rcases List.mem_cons.mp h2 with hh2 | ht2
                · exact absurd (congrArg Prod.fst hh2) heq
                exact ihp r1 r2 ht1 ht2

/-- Witness for C3: two identical negative queries in one run issue exactly
    one fetch. -/
theorem c3_cache_single_fetch_witness : ([qA] : List Str).count qA ≤ 1 := by
  have h := (c3_cache_single_fetch bNeg [(qA, none), (qA, none)] []
    [(qA, none), (qA, none)] [(qA, none)] [qA] qA rfl).2 rfl
  exact h.1

/-- Claim C4, counterexample. With the Scenario A rules spelled exactly as
    the spec gives them — `\d{3,4}p` and `x26[45]`, which have no capture
    group — the extraction expression `match.group(1) or match.group(0)`
    raises IndexError on the first matching bracket, so decompose fails
    instead of producing the expected fields. -/
theorem c4_groupless_rules_raise :
    parse_filename psLit stemA = .error ("no such group".toList) := rfl

/-- Claim C4, amended. With the two technical rules each wrapped in a
    capture group, `(\d{3,4}p)` and `(x26[45])`, and the (spec-modelled)
    digit-based season_episode and episode rules present, Scenario A yields
    exactly the expected record: title "Spy x Family", season "3", episode
    "05", resolution "1080p", video_codec "x264", group unset, remarks
    absent. -/
theorem c4_scenarioA_with_capturing_rules :
    parse_filename psAmd stemA = .ok
      { group := none, title := "Spy x Family".toList, season := ['3'],
        episode := some ['0', '5'], resolution := some "1080p".toList,
        video_codec := some "x264".toList, audio_codec := none, subtitle := none,
        remarks := none, bangumi_eps := none } := rfl

/-- Claim C5, counterexample. The episode format is `f"{int(...):02d}"`,
    a minimum width, not an exact one: the stem "Show - 123" yields the
    three-character episode "123", not a two-digit string. -/
theorem c5_three_digit_episode :
    (parse_filename psAmd ("Show - 123".toList)).map MediaInfo.episode
      = .ok (some ['1', '2', '3'])
    ∧ (['1', '2', '3'] : Str).length ≠ 2 := ⟨rfl, by decide⟩

/-- Claim C5, amended. Any episode value set by decompose — via the
    season_episode rule or the episode rule — is the zero-padded decimal
    rendering of the captured number with minimum width two, hence always at
    least two characters long ("5" becomes "05", "12" stays "12", "123"
    stays "123"). -/
theorem c5_episode_zero_padded (ps : PatSet) (stem : Str) (mi : MediaInfo) (e : Str)
    (hp : parse_filename ps stem = .ok mi) (he : mi.episode = some e) :
    (∃ n : Int, e = pad02 n) ∧ 2 ≤ e.length := by
  rw [parse_filename] at hp
  cases h2 : step2 ps (step1 stem {}).1 (step1 stem {}).2 with
  | error e2 => rw [h2, exc_bind_err] at hp; exact Except.noConfusion hp
  | ok wi2 =>
    rw [h2] at hp
    simp only [exc_bind_ok] at hp
    cases h3 : step3 ps wi2.1 wi2.2 with
    | error e3 => rw [h3, exc_bind_err] at hp; exact Except.noConfusion hp
    | ok wi3 =>
      rw [h3] at hp
      simp only [exc_bind_ok, Except.ok.injEq] at hp
      have he2 : wi3.2.episode = some e := by
        rw [← hp] at he
        rw [show (finalize (step4 wi3.1 wi3.2)).episode = (step4 wi3.1 wi3.2).episode from rfl,
            step4_episode] at he
        exact he
      rcases step3_episode ps wi2.1 wi2.2 wi3.1 wi3.2 h3 with hsame | ⟨n, hn⟩
      · have hc2 : wi2.2.episode = (step1 stem {}).2.episode :=
          step2_episode ps (step1 stem {}).1 (step1 stem {}).2 wi2.1 wi2.2 h2
        rw [hsame, hc2, step1_episode] at he2
        exact Option.noConfusion he2
      · rw [hn] at he2
        injection he2 with he3
        refine ⟨⟨n, he3.symm⟩, ?_⟩
        rw [← he3]
        exact pad02_len n

/-- Witness for C5: the Scenario A parse pads episode "05" to two characters. -/
theorem c5_episode_zero_padded_witness : 2 ≤ (['0', '5'] : Str).length := by
  have h := c5_episode_zero_padded psAmd stemA
    { group := none, title := "Spy x Family".toList, season := ['3'],
      episode := some ['0', '5'], resolution := some "1080p".toList,
      video_codec := some "x264".toList, audio_codec := none, subtitle := none,
      remarks := none, bangumi_eps := none } (['0', '5']) rfl rfl
  exact h.2

/-- Claim C6. Over the bracketed-metadata pass: once one of the five
    once-only technical fields (resolution, video_codec, audio_codec,
    subtitle, group) holds a value, processing any further brackets leaves
    that value untouched; only the remarks list (the source category) grows,
    and it grows only by appending. -/
theorem c6_no_overwrite (ps : PatSet) (bs : List (Str × Str)) (temp : Str)
    (info : PInfo) (temp2 : Str) (info2 : PInfo)
    (h : processBrackets ps bs temp info = .ok (temp2, info2)) :
    (∀ v, info.resolution = some v → info2.resolution = some v)
    ∧ (∀ v, info.video_codec = some v → info2.video_codec = some v)
    ∧ (∀ v, info.audio_codec = some v → info2.audio_codec = some v)
    ∧ (∀ v, info.subtitle = some v → info2.subtitle = some v)
    ∧ (∀ v, info.group = some v → info2.group = some v)
    ∧ (∃ l, info2.remarks = info.remarks ++ l) :=
  processBrackets_mono ps bs temp info temp2 info2 h

/-- Witness for C6: a state with resolution "720p" keeps it across a later
    "[1080p]" bracket that matches the resolution rule. -/
theorem c6_no_overwrite_witness : infoR.resolution = some ("720p".toList) := by
  have h := c6_no_overwrite psAmd [("[1080p]".toList, "1080p".toList)] []
    infoR [] infoR rfl
  exact h.1 ("720p".toList) rfl

/-- Claim C7. The season is overwritten only when it still equals the
    default "1" and the record's localized title contains a 第<numeral>季
    marker; every numeral the marker regex can capture is in the fixed table
    (一→1 … 十→10) and the season becomes the mapped integer as a string; a
    title without a capturable marker — including the unmapped 第十一季 —
    leaves the season unchanged. -/
theorem c7_season_correction (s t : Str) :
    (s ≠ oneStr → seasonCorrect s t = s)
    ∧ (findDiJi t = none → seasonCorrect s t = s)
    ∧ (∀ c, findDiJi t = some c →
        ∃ n, cnNumMap c = some n ∧ 1 ≤ n ∧ n ≤ 10 ∧
          (s = oneStr → seasonCorrect s t = natDec n))
    ∧ seasonCorrect oneStr ("第十一季".toList) = oneStr := by
  refine ⟨?_, ?_, ?_, by rfl⟩
  · intro hs
    rw [seasonCorrect, if_neg hs]
  · intro hn
    rw [seasonCorrect]
    split
    · rw [hn]
    · rfl
  · intro c hc
    obtain ⟨n, hm, h1, h10⟩ := cn_mapped c (findDiJi_mem t c hc)
    refine ⟨n, hm, h1, h10, ?_⟩
    intro hs
    rw [seasonCorrect, if_pos hs, hc]
    show (match cnNumMap c with
          | some n2 => natDec n2
          | none => s) = natDec n
    rw [hm]

/-- Witness for C7: a default season "1" with localized title 某番 第二季 is
    corrected to "2". -/
theorem c7_season_correction_witness :
    seasonCorrect oneStr ("某番 第二季".toList) = ['2'] := by
  obtain ⟨n, hm, _, _, hsc⟩ :=
    (c7_season_correction oneStr ("某番 第二季".toList)).2.2.1 '二' rfl
  have hn : n = 2 := by
    rw [show cnNumMap '二' = some 2 from rfl] at hm
    injection hm with hm2
    exact hm2.symm
  rw [hsc rfl, hn]
  rfl

/-- Claim C8, counterexample. The stem "Hello" contains no brackets and no
    digits, yet decompose keeps it as the title: the sentinel "Unknown
    Title" appears only when the cleaned residual text is empty. -/
theorem c8_plain_word_counterexample :
    ("Hello".toList).all plainChar = true
    ∧ (parse_filename psAmd ("Hello".toList)).map MediaInfo.title
        = .ok ("Hello".toList)
    ∧ ("Hello".toList ≠ unknownTitle) := ⟨by decide, rfl, by decide⟩

/-- Claim C8, amended. Decomposing a stem with no bracket characters, under
    season_episode and episode rules that do not match it (which digit-based
    rules cannot on a digit-free stem), yields season "1" and every optional
    field unset, and the title is the separator-collapsed trimmed stem —
    the sentinel "Unknown Title" exactly when that cleanup is empty. -/
theorem c8_bracketless_defaults (ps : PatSet) (stem : Str)
    (hbr : ∀ c ∈ stem, isOpenB c = false)
    (hse : patGet ps.season_episode stem = none)
    (hep : patGet ps.episode stem = none) :
    parse_filename ps stem = .ok
      { group := none
        title := if pyStrip (collapseSep (pyStrip stem)) = [] then unknownTitle
                 else pyStrip (collapseSep (pyStrip stem))
        season := oneStr
        episode := none
        resolution := none
        video_codec := none
        audio_codec := none
        subtitle := none
        remarks := none
        bangumi_eps := none } := by
  have hts : titleSeasonSearch stem = none :=
    titleSeason_none_of_no_open stem (fun c hc he =>
      absurd (he ▸ hbr c hc) (by decide))
  have h1a : (step1 stem ({} : PInfo)).1 = stem := by rw [step1, hts]
  have h1b : (step1 stem ({} : PInfo)).2 = ({} : PInfo) := by rw [step1, hts]
  have h2 : step2 ps stem ({} : PInfo) = .ok (stem, ({} : PInfo)) := by
    rw [step2, findBrackets_nil_of_no_open stem hbr]
    rfl
  have h3 : step3 ps stem ({} : PInfo) = .ok (stem, ({} : PInfo)) := by
    rw [step3, if_pos rfl, hse, hep]
  have key : parse_filename ps stem = .ok (finalize (step4 stem ({} : PInfo))) := by
    rw [parse_filename, h1a, h1b, h2]
    simp only [exc_bind_ok]
    rw [h3]
    simp only [exc_bind_ok]
  rw [key]
  have h4 : step4 stem ({} : PInfo) =
      { ({} : PInfo) with title := some (fallbackTitle stem) } := rfl
  rw [h4]
  have h5 : fallbackTitle stem =
      (if pyStrip (collapseSep (pyStrip stem)) = [] then unknownTitle
       else pyStrip (collapseSep (pyStrip stem))) := by
    rw [fallbackTitle, stripBrAll_id_of_no_open stem hbr]
  rw [h5]
  rfl

/-- Witness for C8: the digit-free, bracket-free stem "Hello" gets all the
    defaults and keeps its own text as title. -/
theorem c8_bracketless_defaults_witness :
    parse_filename psAmd ("Hello".toList) = .ok
      { group := none, title := "Hello".toList, season := oneStr, episode := none,
        resolution := none, video_codec := none, audio_codec := none,
        subtitle := none, remarks := none, bangumi_eps := none } :=
  c8_bracketless_defaults psAmd ("Hello".toList) (by decide) rfl rfl

/-- Claim C9. A file whose decomposed title is empty or the sentinel
    "Unknown Title" performs no external lookup at all: the resolver
    returns the record unchanged (no season correction, no title
    normalization, no bangumi_eps hint), the cache untouched, and the
    fetched flag false. -/
theorem c9_sentinel_title_skips_lookup (b : ApiBehavior) (cache : Cache)
    (info : MediaInfo) (h : info.title = [] ∨ info.title = unknownTitle) :
    resolveStep b cache info = .ok (info, cache, false) := by
  rw [resolveStep, if_neg]
  rcases h with h | h <;> simp [h]

/-- Witness for C9: the sentinel record is passed through untouched. -/
theorem c9_sentinel_title_skips_lookup_witness :
    resolveStep bNeg [] miU = .ok (miU, [], false) :=
  c9_sentinel_title_skips_lookup bNeg [] miU (Or.inr rfl)

/-- Claim C10. The title+season stage matches only ASCII square brackets:
    on any string without an ASCII '[' it finds nothing, so a full-width
    【Spy x Family Season 2】 is never claimed by it — yet the technical
    stage still claims the full-width 【1080p】 and the fallback stripping
    removes the full-width bracket, leaving the sentinel title, in contrast
    with the ASCII-bracket spelling of the same stem. -/
theorem c10_ascii_only_title_season :
    (∀ s : Str, (∀ c ∈ s, c ≠ '[') → titleSeasonSearch s = none)
    ∧ parse_filename psAmd ("【Spy x Family Season 2】【1080p】".toList) = .ok
        { group := none, title := unknownTitle, season := oneStr,
          episode := some ['0', '2'], resolution := some "1080p".toList,
          video_codec := none, audio_codec := none, subtitle := none,
          remarks := none, bangumi_eps := none }
    ∧ parse_filename psAmd ("[Spy x Family Season 2][1080p]".toList) = .ok
        { group := none, title := "Spy x Family".toList, season := ['2'],
          episode := none, resolution := some "1080p".toList,
          video_codec := none, audio_codec := none, subtitle := none,
          remarks := none, bangumi_eps := none } :=
  ⟨fun s h => titleSeason_none_of_no_open s h, rfl, rfl⟩

/-- Witness for C10: the full-width stem is rejected by the title+season
    scanner. -/
theorem c10_ascii_only_title_season_witness :
    titleSeasonSearch ("【Spy x Family Season 2】【1080p】".toList) = none :=
  c10_ascii_only_title_season.1 ("【Spy x Family Season 2】【1080p】".toList)
    (by decide)

end VideoDemo
